import Mathlib

/-!
Verification of the pathway_shastra repository against its specification.

The development shallowly embeds the Python functions that the checked
claims talk about:

* `src/pathway_indicators/accumulators.py` — MACD, Keltner midline and
  ADL window accumulators (`Accumulators` namespace);
* `src/pathway_indicators/signal_generator.py` — the trading-signal
  decision function (`SignalGen` namespace);
* `src/news_scraper/backend/services/enrichment-pipeline/dedup.py` —
  URL normalization plus the URL- and fuzzy-title-deduplication state
  machines over a Redis-like key-value store (`Dedup` namespace);
* `src/stocks_agent/agents/accessories/create_update_portfolio.py` —
  the portfolio read-modify-write transaction (`Portfolio` namespace);
* `src/news_scraper/backend/services/llm-worker/worker_native.py` — one
  iteration of the summarizer worker loop (`Worker` namespace).

Python floats are modelled as exact rationals (`ℚ`); machine-level
floating point rounding is outside the scope of this development.
Strings are assumed ASCII where Python applies Unicode-aware operations
(all inputs exercised by the spec are ASCII).
-/

set_option allowUnsafeReducibility true
attribute [local semireducible] Rat.add Rat.sub Rat.mul Rat.div Rat.inv Rat.normalize
set_option maxRecDepth 8000

/-- Insert `a` into `l` before the first element `b` with `le a b`
(helper of `pySorted`). -/
def orderedInsertBy (le : α → α → Bool) (a : α) : List α → List α
  | [] => [a]
  | b :: l => if le a b then a :: b :: l else b :: orderedInsertBy le a l

/-- Stable ascending sort, modelling Python `sorted` with a key
comparison `le` (a total preorder). Python `sorted` is stable: equal keys
keep their input order, which this insertion sort preserves. -/
def pySorted (le : α → α → Bool) : List α → List α
  | [] => []
  | a :: l => orderedInsertBy le a (pySorted le l)

namespace Accumulators

/-- EMA helper: continues the stream `out` of `ema_stream` after the seed
value `ema`, with smoothing factor `alpha`
(`ema = price * alpha + ema * (1 - alpha)` per price). -/
def emaFrom (alpha : ℚ) (ema : ℚ) : List ℚ → List ℚ
  | [] => []
  | p :: rest =>
    let e := p * alpha + ema * (1 - alpha)
    e :: emaFrom alpha e rest

/-- The inner `ema_stream(prices, span)` of `MACDAccumulator.compute_result`:
`alpha = 2 / (span + 1)`, seeded with the first price, one output per input. -/
def emaStream (prices : List ℚ) (span : ℕ) : List ℚ :=
  match prices with
  | [] => []
  | p :: rest => p :: emaFrom (2 / ((span : ℚ) + 1)) p rest

/-- `MACDAccumulator.compute_result` from
`src/pathway_indicators/accumulators.py`: EMA12 and EMA26 prefix streams,
`macd_list = ema12 - ema26` pointwise, `ema9 = ema_stream(macd_list, 9)`,
returns `(macd_list[-1], ema9[-1], difference)`; `(0, 0, 0)` only when the
window holds no prices. -/
def macdCompute (prices : List ℚ) : ℚ × ℚ × ℚ :=
  if prices = [] then (0, 0, 0)
  else
    let ema12 := emaStream prices 12
    let ema26 := emaStream prices 26
    if ema12 = [] ∨ ema26 = [] then (0, 0, 0)
    else
      let macdList := List.zipWith (fun a b => a - b) ema12 ema26
      let ema9 := if macdList ≠ [] then emaStream macdList 9 else [0]
      let m := macdList.getLastD 0
      let s := ema9.getLastD 0
      (m, s, m - s)

/-- `KeltnerMidAccumulator.compute_result` from
`src/pathway_indicators/accumulators.py`: sort the `(close, date)` items by
date (stably, as Python `sorted` does), extract closes, and fold
`ema = c * alpha + ema * (1 - alpha)` with `alpha = 2 / 21` starting from
the earliest close; `0` for an empty window. Dates are modelled as `ℕ`. -/
def keltnerMidCompute (items : List (ℚ × ℕ)) : ℚ :=
  let sortedItems := pySorted (fun a b => a.2 ≤ b.2) items
  let closes := sortedItems.map Prod.fst
  match closes with
  | [] => 0
  | c :: rest => rest.foldl (fun ema x => x * (2 / 21) + ema * (1 - 2 / 21)) c

/-- Generic seeded EMA fold (used to state what the Keltner midline
computes): fold `ema = c * alpha + ema * (1 - alpha)` over the closes. -/
def emaFold (alpha : ℚ) (seed : ℚ) (closes : List ℚ) : ℚ :=
  closes.foldl (fun ema x => x * alpha + ema * (1 - alpha)) seed

/-- Keltner midline as the specification words it: EMA(21) of the closes in
ascending date order where EMA(n) uses `alpha = 2 / (n + 1)`, i.e.
`alpha = 2 / 22 = 1 / 11`. -/
def keltnerMidSpec (items : List (ℚ × ℕ)) : ℚ :=
  let sortedItems := pySorted (fun a b => a.2 ≤ b.2) items
  let closes := sortedItems.map Prod.fst
  match closes with
  | [] => 0
  | c :: rest => emaFold (2 / (21 + 1)) c rest

/-- Python `dict(pairs)` lookup: the value of the last pair with the given
key, if any. -/
def dictLookup (pairs : List (ℕ × ℚ)) (k : ℕ) : Option ℚ :=
  (pairs.reverse.find? (fun p => p.1 == k)).map Prod.snd

/-- Python `dict(pairs)` lookup with default 0 (only used on keys that are
present). -/
def dictGetD (pairs : List (ℕ × ℚ)) (k : ℕ) : ℚ :=
  (dictLookup pairs k).getD 0

/-- First-occurrence deduplicated key list of a Python dict built from
`pairs`. -/
def dictKeys (pairs : List (ℕ × ℚ)) : List ℕ :=
  (pairs.map Prod.fst).foldl (fun acc k => if k ∈ acc then acc else acc ++ [k]) []

/-- `sorted(set(hd) & set(ld) & set(cd) & set(vd))` of
`ADLAccumulator.compute_result`: the ascending list of dates present in all
four per-field dicts. -/
def commonDates (hd ld cd vd : List (ℕ × ℚ)) : List ℕ :=
  pySorted (fun a b => a ≤ b)
    ((dictKeys hd).filter
      (fun k => k ∈ dictKeys ld ∧ k ∈ dictKeys cd ∧ k ∈ dictKeys vd))

/-- One bar's contribution inside the loop of `ADLAccumulator.compute_result`:
`denom = h - l if h != l else 1`; `mfm = ((c - l) - (h - c)) / denom`;
contribution `mfm * v`. -/
def adlTerm (h l c v : ℚ) : ℚ :=
  let denom := if h ≠ l then h - l else 1
  (((c - l) - (h - c)) / denom) * v

/-- `ADLAccumulator.compute_result` from
`src/pathway_indicators/accumulators.py`: build per-field dicts from the
`(date, value)` deques, iterate the sorted common dates and accumulate
`adlTerm`. -/
def adlCompute (hd ld cd vd : List (ℕ × ℚ)) : ℚ :=
  (commonDates hd ld cd vd).foldl
    (fun adl dt =>
      adl + adlTerm (dictGetD hd dt) (dictGetD ld dt) (dictGetD cd dt) (dictGetD vd dt))
    0

end Accumulators

namespace SignalGen

/-- Trading action emitted by `enhanced_signal_generator`. -/
inductive Action where
  | BUY
  | SELL
  | HOLD
deriving DecidableEq

/-- The inputs of `enhanced_signal_generator` in
`src/pathway_indicators/signal_generator.py`. `close` and `volume` are the
window tuples of which the code reads element 1 (`close[1]`, `volume[1]`),
modelled as pairs; arguments the code checks against `None` (`atr`, `crsi`,
`sma_20`, `sma_50`, `cmo`) are `Option ℚ`. -/
structure SignalInput where
  close : ℚ × ℚ
  macd_tuple : ℚ × ℚ × ℚ
  rsi : ℚ
  atr : Option ℚ
  min_low : ℚ
  max_high : ℚ
  sma_20 : Option ℚ
  sma_50 : Option ℚ
  volume : ℚ × ℚ
  vwap : ℚ
  bb_tuple : ℚ × ℚ
  crsi : Option ℚ
  klinger_tuple : ℚ × ℚ × ℚ
  keltner : ℚ × ℚ × ℚ
  cmo : Option ℚ

/-- The output fields of `enhanced_signal_generator` that carry the
decision (the returned dict additionally echoes the input indicator
values verbatim, which is not modelled). -/
structure SignalResult where
  action : Action
  stop_loss : ℚ
  take_profit : ℚ
  signal_strength : ℕ
  limit_order : ℚ
  current_price : ℚ
deriving DecidableEq

/-- The nine `buy_conditions` votes of `enhanced_signal_generator`
(Python truthiness `if bb_low`, `if vwap`, `if kelt_low` is nonzeroness;
`cmo` has already been coerced from `None` to `0`). -/
def countBuyConditions (i : SignalInput) : ℕ :=
  let price := i.close.2
  let macd := i.macd_tuple.1
  let macd_sig := i.macd_tuple.2.1
  let macd_hist := i.macd_tuple.2.2
  let bb_low := i.bb_tuple.1
  let klinger := i.klinger_tuple.1
  let klinger_sig := i.klinger_tuple.2.1
  let klinger_hist := i.klinger_tuple.2.2
  let kelt_low := i.keltner.2.2
  let cmo := i.cmo.getD 0
  (if macd > macd_sig ∧ macd_hist > 0 then 1 else 0)
  + (if 25 < i.rsi ∧ i.rsi < 45 then 1 else 0)
  + (match i.crsi with | some x => if x < 25 then 1 else 0 | none => 0)
  + (if bb_low ≠ 0 ∧ price ≤ bb_low then 1 else 0)
  + (if i.vwap ≠ 0 ∧ price ≥ i.vwap * (101 / 100) then 1 else 0)
  + (if kelt_low ≠ 0 ∧ price ≤ kelt_low then 1 else 0)
  + (if klinger > klinger_sig ∧ klinger_hist > 0 then 1 else 0)
  + (match i.sma_20, i.sma_50 with
     | some a, some b => if a > b then 1 else 0
     | _, _ => 0)
  + (if cmo < -30 then 1 else 0)

/-- The ten `sell_conditions` votes of `enhanced_signal_generator`. -/
def countSellConditions (i : SignalInput) : ℕ :=
  let price := i.close.2
  let macd := i.macd_tuple.1
  let macd_sig := i.macd_tuple.2.1
  let macd_hist := i.macd_tuple.2.2
  let bb_high := i.bb_tuple.2
  let klinger := i.klinger_tuple.1
  let klinger_sig := i.klinger_tuple.2.1
  let klinger_hist := i.klinger_tuple.2.2
  let kelt_up := i.keltner.2.1
  let cmo := i.cmo.getD 0
  (if macd < macd_sig ∧ macd_hist < 0 then 1 else 0)
  + (if 55 < i.rsi ∧ i.rsi < 75 then 1 else 0)
  + (match i.crsi with | some x => if x > 75 then 1 else 0 | none => 0)
  + (if price < i.max_high * (99 / 100) then 1 else 0)
  + (if bb_high ≠ 0 ∧ price ≥ bb_high then 1 else 0)
  + (if i.vwap ≠ 0 ∧ price ≤ (99 / 100) * i.vwap then 1 else 0)
  + (if kelt_up ≠ 0 ∧ price ≥ kelt_up then 1 else 0)
  + (if klinger < klinger_sig ∧ klinger_hist < 0 then 1 else 0)
  + (match i.sma_20, i.sma_50 with
     | some a, some b => if a < b then 1 else 0
     | _, _ => 0)
  + (if cmo > 30 then 1 else 0)

/-- `enhanced_signal_generator` from
`src/pathway_indicators/signal_generator.py`, in the configuration the
repository ships (no `sklearn_trading_model.pkl` file is present, so the
module-level `ml_model` is `None` and the ML augmentation block is
skipped). Risk constants: `SL_ATR_MULT = 1.0`, `TP_ATR_MULT = 1.5`,
`LIMIT_ORDER_AT_MULT = 0.25`. -/
def enhanced_signal_generator (i : SignalInput)
    (sell_threshold buy_threshold : ℕ) : SignalResult :=
  let current_price := i.close.2
  let current_volume := i.volume.2
  let atr := i.atr.getD 0
  if current_price < i.min_low ∨ current_volume = 0 then
    { action := Action.HOLD, stop_loss := 0, take_profit := 0,
      signal_strength := 0, limit_order := 0, current_price := current_price }
  else
    let buy_conditions := countBuyConditions i
    let sell_conditions := countSellConditions i
    if buy_conditions ≥ buy_threshold then
      { action := Action.BUY,
        stop_loss := current_price - 1 * atr,
        take_profit := current_price + (3 / 2) * atr,
        signal_strength := buy_conditions,
        limit_order := current_price - (1 / 4) * atr,
        current_price := current_price }
    else if sell_conditions ≥ sell_threshold then
      { action := Action.SELL, stop_loss := 0, take_profit := 0,
        signal_strength := sell_conditions,
        limit_order := current_price - (1 / 4) * atr,
        current_price := current_price }
    else
      { action := Action.HOLD, stop_loss := 0, take_profit := 0,
        signal_strength := 0, limit_order := 0, current_price := current_price }

end SignalGen

namespace Dedup

/-- Python regex `\w` on ASCII text: letters, digits and underscore. -/
def isWordChar (ch : Char) : Bool := ch.isAlphanum || ch = '_'

/-- Python regex `\s` on ASCII text. -/
def isSpaceChar (ch : Char) : Bool :=
  ch = ' ' || ch = '\t' || ch = '\n' || ch = '\r' || ch = '\x0b' || ch = '\x0c'

/-- Split a character list into the maximal groups separated by
whitespace (empty groups arise at leading, trailing or repeated
whitespace). -/
def splitAtSpaces : List Char → List (List Char)
  | [] => []
  | c :: rest =>
    let groups := splitAtSpaces rest
    if isSpaceChar c then [] :: groups
    else
      match groups with
      | [] => [[c]]
      | g :: gs => (c :: g) :: gs

/-- `DeduplicationManager.normalize_title` from
`src/news_scraper/backend/services/enrichment-pipeline/dedup.py`:
empty stays empty; otherwise lowercase, replace every character that is
neither word nor whitespace by a space, collapse whitespace runs to single
spaces and strip the ends (the latter two rendered as split/filter/join,
which is what the two regex substitutions plus `strip` compute). -/
def normalize_title (title : String) : String :=
  if title = "" then ""
  else
    let lowered := title.data.map Char.toLower
    let depunct := lowered.map (fun ch => if isWordChar ch || isSpaceChar ch then ch else ' ')
    String.intercalate " "
      (((splitAtSpaces depunct).filter (fun w => w ≠ [])).map String.mk)

/-- Inner loop of the Levenshtein/indel row update: `left` is the cost just
computed in the current row, the first element of the third argument is the
diagonal cost from the previous row. Substitution costs 2, insertion and
deletion cost 1 (the weights of python-Levenshtein `ratio`). -/
def levRowGo (x : Char) (left : ℕ) : List ℕ → List Char → List ℕ
  | diag :: rest, y :: ys =>
    let up := rest.headD 0
    let cur := min (up + 1) (min (left + 1) (diag + (if x = y then 0 else 2)))
    cur :: levRowGo x cur rest ys
  | _, _ => []

/-- One dynamic-programming row of the indel distance. -/
def levNextRow (x : Char) (row : List ℕ) (ys : List Char) : List ℕ :=
  let first := row.headD 0 + 1
  first :: levRowGo x first row ys

/-- Weighted edit distance with substitution cost 2 (equivalently, the
indel distance), the distance underlying `Levenshtein.ratio`. -/
def indelDist (xs ys : List Char) : ℕ :=
  (xs.foldl (fun row x => levNextRow x row ys) (List.range (ys.length + 1))).getLastD 0

/-- `Levenshtein.ratio(a, b)` of the python-Levenshtein library:
`(|a| + |b| - dist) / (|a| + |b|)` where `dist` is the edit distance with
substitution cost 2; two empty strings have ratio 1. -/
def levRatio (a b : String) : ℚ :=
  let lensum := a.length + b.length
  if lensum = 0 then 1
  else ((lensum : ℚ) - indelDist a.data b.data) / (lensum : ℚ)

/-- `MAX_FUZZY_SCAN` from dedup.py. -/
def MAX_FUZZY_SCAN : ℕ := 200

/-- A member of the per-`(company, day)` Redis sorted set
`titles:{company}:{day}`: the stored string `"normalized_title|cluster_id"`
together with its timestamp score. -/
structure TitleEntry where
  member : String
  score : ℕ
deriving DecidableEq

/-- Redis `ZRANGE key 0 (n-1)`: the first `n` members in ascending score
order (insertion order on ties, a faithful rendering for distinct
members). -/
def zrangeAsc (store : List TitleEntry) (n : ℕ) : List String :=
  ((pySorted (fun a b => a.score ≤ b.score) store).take n).map TitleEntry.member

/-- The `n` most-recent members — newest timestamps first — as the
specification's words ("most-recent stored titles") describe the scanned
set: sort by ascending score, newest first, take `n`. -/
def mostRecentMembers (store : List TitleEntry) (n : ℕ) : List String :=
  (((pySorted (fun a b => a.score ≤ b.score) store).reverse).take n).map
    TitleEntry.member

/-- Python `stored.rsplit('|', 1)` restricted to the two-part case: split
at the last bar, `none` when the string holds no bar (the loop then
`continue`s). -/
def rsplitBar (s : String) : Option (String × String) :=
  let revTail := s.data.reverse.takeWhile (fun c => c ≠ '|')
  if revTail.length = s.data.length then none
  else
    some (String.mk (s.data.take (s.data.length - revTail.length - 1)),
      String.mk revTail.reverse)

/-- Whether a stored member parses as `title|cluster` and its title part
has Levenshtein ratio at least `TITLE_SIMILARITY_THRESHOLD = 0.65` with
the normalized incoming title. -/
def memberMatches (normalized stored : String) : Bool :=
  match rsplitBar stored with
  | none => false
  | some p => decide (levRatio normalized p.1 ≥ 13 / 20)

/-- The scan loop of `is_title_duplicate`: first member that parses and
matches wins and its cluster id is returned. -/
def scanTitles (normalized : String) : List String → Bool × Option String
  | [] => (false, none)
  | stored :: rest =>
    match rsplitBar stored with
    | none => scanTitles normalized rest
    | some p =>
      if levRatio normalized p.1 ≥ 13 / 20 then (true, some p.2)
      else scanTitles normalized rest

/-- `day = published_at[:10] if published_at else utcnow` — the current
day is passed explicitly as `today`. -/
def dayOf (published_at today : String) : String :=
  if published_at = "" then today else published_at.take 10

/-- `DeduplicationManager.is_title_duplicate` from dedup.py: normalize the
title, bail out below 10 characters, then scan the first
`MAX_FUZZY_SCAN` members of the sorted set at key
`titles:{company}:{day}` (in Redis ZRANGE ascending-score order) for a
fuzzy match. `idx` maps a `(company, day)` key to its sorted set. -/
def is_title_duplicate (idx : String × String → List TitleEntry) (today : String)
    (title company published_at : String) : Bool × Option String :=
  let normalized := normalize_title title
  if normalized = "" ∨ normalized.length < 10 then (false, none)
  else
    scanTitles normalized
      (zrangeAsc (idx (company, dayOf published_at today)) MAX_FUZZY_SCAN)

/-- The MD5 round constants `K[0..63]` (`floor(2^32 * |sin(i + 1)|)`). -/
def md5K : List ℕ :=
  [3614090360, 3905402710, 606105819, 3250441966, 4118548399, 1200080426,
   2821735955, 4249261313, 1770035416, 2336552879, 4294925233, 2304563134,
   1804603682, 4254626195, 2792965006, 1236535329, 4129170786, 3225465664,
   643717713, 3921069994, 3593408605, 38016083, 3634488961, 3889429448,
   568446438, 3275163606, 4107603335, 1163531501, 2850285829, 4243563512,
   1735328473, 2368359562, 4294588738, 2272392833, 1839030562, 4259657740,
   2763975236, 1272893353, 4139469664, 3200236656, 681279174, 3936430074,
   3572445317, 76029189, 3654602809, 3873151461, 530742520, 3299628645,
   4096336452, 1126891415, 2878612391, 4237533241, 1700485571, 2399980690,
   4293915773, 2240044497, 1873313359, 4264355552, 2734768916, 1309151649,
   4149444226, 3174756917, 718787259, 3951481745]

/-- The MD5 per-round left-rotation amounts `s[0..63]`. -/
def md5S : List ℕ :=
  [7, 12, 17, 22, 7, 12, 17, 22, 7, 12, 17, 22, 7, 12, 17, 22,
   5, 9, 14, 20, 5, 9, 14, 20, 5, 9, 14, 20, 5, 9, 14, 20,
   4, 11, 16, 23, 4, 11, 16, 23, 4, 11, 16, 23, 4, 11, 16, 23,
   6, 10, 15, 21, 6, 10, 15, 21, 6, 10, 15, 21, 6, 10, 15, 21]

/-- 32-bit left rotation (`x < 2^32`, `0 < n ≤ 32`). -/
def rotl32 (x n : ℕ) : ℕ := ((x <<< n) % 4294967296) ||| (x >>> (32 - n))

/-- The `n` little-endian bytes of `x`. -/
def leBytes (n x : ℕ) : List ℕ := (List.range n).map (fun i => (x >>> (8 * i)) % 256)

/-- Little-endian byte list to number. -/
def leWord (bs : List ℕ) : ℕ := bs.foldr (fun b acc => b + 256 * acc) 0

/-- Fuelled worker for `chunkBytes` (structural recursion on the fuel;
each step consumes at least one list element, so fuel `= length` is always
enough). -/
def chunkBytesFuel (n : ℕ) : ℕ → List ℕ → List (List ℕ)
  | _, [] => []
  | 0, _ => []
  | Nat.succ fuel, b :: rest => (b :: rest.take n) :: chunkBytesFuel n fuel (rest.drop n)

/-- Split a byte list into chunks of `n + 1` bytes. -/
def chunkBytes (n : ℕ) (l : List ℕ) : List (List ℕ) := chunkBytesFuel n l.length l

/-- MD5 padding: append `0x80`, zero-pad to 56 mod 64 and append the
64-bit little-endian bit length. -/
def md5Pad (msg : List ℕ) : List ℕ :=
  let len := msg.length
  let padLen := (56 - (len + 1) % 64 + 64) % 64
  msg ++ [128] ++ List.replicate padLen 0
    ++ leBytes 8 ((len * 8) % 18446744073709551616)

/-- The MD5 round mixing function and message index for round `i` (32-bit
complement written as XOR with `2^32 - 1`). -/
def md5F (i b c d : ℕ) : ℕ × ℕ :=
  if i < 16 then ((b &&& c) ||| ((b ^^^ 4294967295) &&& d), i)
  else if i < 32 then ((d &&& b) ||| ((d ^^^ 4294967295) &&& c), (5 * i + 1) % 16)
  else if i < 48 then (b ^^^ c ^^^ d, (3 * i + 5) % 16)
  else (c ^^^ (b ||| (d ^^^ 4294967295)), (7 * i) % 16)

/-- One MD5 round on the running `(a, b, c, d)` state with message words
`M`. -/
def md5Step (M : List ℕ) (st : ℕ × ℕ × ℕ × ℕ) (i : ℕ) : ℕ × ℕ × ℕ × ℕ :=
  let a := st.1
  let b := st.2.1
  let c := st.2.2.1
  let d := st.2.2.2
  let fg := md5F i b c d
  let f := (fg.1 + a + md5K.getD i 0 + M.getD fg.2 0) % 4294967296
  (d, (b + rotl32 f (md5S.getD i 0)) % 4294967296, b, c)

/-- Process one 64-byte block: 64 rounds, then add into the state. -/
def md5Block (st : ℕ × ℕ × ℕ × ℕ) (blk : List ℕ) : ℕ × ℕ × ℕ × ℕ :=
  let M := (chunkBytes 3 blk).map leWord
  let r := (List.range 64).foldl (md5Step M) st
  ((st.1 + r.1) % 4294967296, (st.2.1 + r.2.1) % 4294967296,
   (st.2.2.1 + r.2.2.1) % 4294967296, (st.2.2.2 + r.2.2.2) % 4294967296)

/-- Hex digit character. -/
def hexDigit (n : ℕ) : Char := "0123456789abcdef".data.getD n '0'

/-- Two-character hex rendering of a byte. -/
def byteHex (b : ℕ) : List Char := [hexDigit (b / 16), hexDigit (b % 16)]

/-- Little-endian hex rendering of a 32-bit word. -/
def wordHexLe (w : ℕ) : List Char := ((leBytes 4 w).map byteHex).flatten

/-- `hashlib.md5(msg).hexdigest()` on a byte list. -/
def md5Hex (msg : List ℕ) : String :=
  let r := (chunkBytes 63 (md5Pad msg)).foldl md5Block
    (1732584193, 4023233417, 2562383102, 271733878)
  String.mk (wordHexLe r.1 ++ wordHexLe r.2.1 ++ wordHexLe r.2.2.1 ++ wordHexLe r.2.2.2)

/-- UTF-8 bytes of an ASCII string. -/
def strBytes (s : String) : List ℕ := s.data.map Char.toNat

/-- ASCII lowercasing (`str.lower` on the ASCII inputs considered). -/
def strToLower (s : String) : String := String.mk (s.data.map Char.toLower)

/-- A URL as decomposed by `urllib.parse.urlparse`: scheme, netloc, path,
params (the `;suffix` of the last path segment), query and fragment. The
query is modelled as the decoded key-value pair list (the percent codec,
which `parse_qs`/`urlencode` apply symmetrically, is identity on the
inputs considered). -/
structure UrlParts where
  scheme : String
  netloc : String
  path : String
  params : String
  query : List (String × String)
  fragment : String
deriving DecidableEq

/-- The tracking parameter names removed by
`DeduplicationManager.normalize_url`. -/
def tracking_params : List String :=
  ["utm_source", "utm_medium", "utm_campaign", "utm_term", "utm_content",
   "ref", "source", "fbclid", "gclid", "cid", "soc_src", "src", "ig_cid"]

/-- Deduplicate keeping first occurrences (Python dict key order). -/
def firstDedup (l : List String) : List String :=
  l.foldl (fun acc k => if k ∈ acc then acc else acc ++ [k]) []

/-- `urllib.parse.parse_qs` on decoded pairs: drop blank values, group the
values of each key in first-occurrence key order. -/
def parse_qs (q : List (String × String)) : List (String × List String) :=
  let nonblank := q.filter (fun p => p.2 ≠ "")
  (firstDedup (nonblank.map Prod.fst)).map
    (fun k => (k, (nonblank.filter (fun p => p.1 = k)).map Prod.snd))

/-- `urllib.parse.urlencode(..., doseq=True)` on decoded pairs:
`k=v` joined with `&`, one item per value. -/
def urlencode (ps : List (String × List String)) : String :=
  String.intercalate "&" ((ps.map (fun p => p.2.map (fun v => p.1 ++ "=" ++ v))).flatten)

/-- Python `path.rstrip('/')`. -/
def rstripSlash (s : String) : String :=
  String.mk (s.data.reverse.dropWhile (fun c => c = '/')).reverse

/-- `urllib.parse.urlunsplit`, following CPython: glue `//netloc` in front
of the path when a netloc is present, then prepend `scheme:` and append
`?query` and `#fragment` when nonempty. -/
def urlunsplit (scheme netloc url query fragment : String) : String :=
  let url1 :=
    if netloc ≠ "" ∨ (url ≠ "" ∧ url.take 2 = "//") then
      "//" ++ netloc ++ (if url ≠ "" ∧ url.take 1 ≠ "/" then "/" ++ url else url)
    else url
  let url2 := if scheme ≠ "" then scheme ++ ":" ++ url1 else url1
  let url3 := if query ≠ "" then url2 ++ "?" ++ query else url2
  if fragment ≠ "" then url3 ++ "#" ++ fragment else url3

/-- `DeduplicationManager.normalize_url` from dedup.py: default the scheme
to `https`, lowercase the netloc, strip trailing slashes from the path,
drop query parameters whose lowercased name is a tracking parameter,
re-encode the remaining ones, and drop the fragment (`urlunparse` merges
`params` into the path with `;` before calling `urlunsplit`). -/
def normalize_url (u : UrlParts) : String :=
  let filtered := (parse_qs u.query).filter (fun p => strToLower p.1 ∉ tracking_params)
  let path1 := rstripSlash u.path
  let url0 := if u.params ≠ "" then path1 ++ ";" ++ u.params else path1
  urlunsplit (if u.scheme = "" then "https" else u.scheme) (strToLower u.netloc)
    url0 (urlencode filtered) ""

/-- `DeduplicationManager.compute_url_hash`: MD5 of the normalized URL. -/
def compute_url_hash (u : UrlParts) : String := md5Hex (strBytes (normalize_url u))

/-- `DEDUP_TTL_SECONDS = 24 * 60 * 60` from dedup.py. -/
def DEDUP_TTL_SECONDS : ℕ := 86400

/-- The Redis string keyspace used for `url:`/`content:` dedup entries:
each key carries its absolute expiry time in seconds. -/
structure KvState where
  entries : List (String × ℕ)
deriving DecidableEq

/-- Redis `EXISTS key` at time `now`: some entry for the key has not yet
expired. -/
def kvExists (s : KvState) (now : ℕ) (key : String) : Bool :=
  s.entries.any (fun e => decide (e.1 = key ∧ now < e.2))

/-- Redis `SETEX key ttl value` at time `now`. -/
def kvSetex (s : KvState) (now ttl : ℕ) (key : String) : KvState :=
  { entries := (key, now + ttl) :: s.entries }

/-- `DeduplicationManager.is_url_duplicate` from dedup.py: hash the
normalized URL; report a duplicate when `url:{hash}` is live, otherwise
reserve the key for 24 hours. Returns the `(is_duplicate, url_hash)` pair
together with the updated store. -/
def is_url_duplicate (s : KvState) (now : ℕ) (u : UrlParts) : (Bool × String) × KvState :=
  let h := compute_url_hash u
  let key := "url:" ++ h
  if kvExists s now key then ((true, h), s)
  else ((false, h), kvSetex s now DEDUP_TTL_SECONDS key)

end Dedup

namespace Portfolio

/-- The four transaction kinds of `PortfolioTransaction.action`. -/
inductive TxnAction where
  | BUY
  | SELL
  | DIVIDEND
  | SPLIT
deriving DecidableEq

/-- A `PortfolioTransaction` (the generated `transaction_id`, timestamp
and currency play no role in the update logic). -/
structure Txn where
  ticker : String
  action : TxnAction
  quantity : ℚ
  price : ℚ
  fees : ℚ
deriving DecidableEq

/-- One embedded holding dict of a stored portfolio document. -/
structure Holding where
  ticker : String
  company_name : String
  sector : Option String
  beta : ℚ
  quantity : ℚ
  avg_cost : ℚ
  current_price : ℚ
  market_value : ℚ
  unrealized_pnl : ℚ
  weight : ℚ
deriving DecidableEq

/-- A stored portfolio document (`portfolios` collection). -/
structure PortfolioDoc where
  portfolio_id : String
  cash : ℚ
  total_value : ℚ
  holdings : List Holding
  sector_exposures : List (String × ℚ)
deriving DecidableEq

/-- The two MongoDB collections touched by
`update_portfolio_with_transaction`: the portfolio documents and the
append-only transactions log (each log entry tagged with its
portfolio_id). -/
structure Db where
  portfolios : List PortfolioDoc
  transactions : List (String × Txn)
deriving DecidableEq

/-- The `stock_metadata` dict for a BUY of a new ticker. -/
structure StockMeta where
  company_name : String
  sector : String
  beta : ℚ
deriving DecidableEq

/-- The shell holding dict created on a BUY of a new ticker
(`meta.get` defaults: company name = ticker, sector `"Unknown"`,
beta 1.0). -/
def newShell (txn : Txn) (meta : Option StockMeta) : Holding :=
  { ticker := txn.ticker,
    company_name := (meta.map StockMeta.company_name).getD txn.ticker,
    sector := some ((meta.map StockMeta.sector).getD "Unknown"),
    beta := (meta.map StockMeta.beta).getD 1,
    quantity := 0, avg_cost := 0, current_price := txn.price,
    market_value := 0, unrealized_pnl := 0, weight := 0 }

/-- A placeholder holding for indexed access (indices used are always in
range, so the default is never read). -/
def dummyHolding : Holding :=
  { ticker := "", company_name := "", sector := none, beta := 0, quantity := 0,
    avg_cost := 0, current_price := 0, market_value := 0, unrealized_pnl := 0,
    weight := 0 }

/-- Step 5 of `update_portfolio_with_transaction`: refresh the active
holding's `current_price`, `market_value` and `unrealized_pnl` from the
transaction price. -/
def updMetrics (h : Holding) (price : ℚ) : Holding :=
  let mv := h.quantity * price
  { h with
    current_price := price
    market_value := mv
    unrealized_pnl := mv - h.quantity * h.avg_cost }

/-- Accumulate `market_value` into the per-sector association list
(Python dict semantics: first-seen key order, values accumulated). -/
def addSector (acc : List (String × ℚ)) (s : String) (v : ℚ) : List (String × ℚ) :=
  if acc.any (fun p => p.1 == s) then
    acc.map (fun p => if p.1 = s then (p.1, p.2 + v) else p)
  else acc ++ [(s, v)]

/-- The `sector_exp` dict of step 6: holdings with a truthy `sector`
contribute their `market_value`. -/
def sectorExp (holdings : List Holding) : List (String × ℚ) :=
  holdings.foldl
    (fun acc h =>
      match h.sector with
      | some s => if s ≠ "" then addSector acc s h.market_value else acc
      | none => acc)
    []

/-- MongoDB `update_one` on the portfolios collection: apply `f` to the
first document with the given id. -/
def writeBack (pid : String) (f : PortfolioDoc → PortfolioDoc) :
    List PortfolioDoc → List PortfolioDoc
  | [] => []
  | p :: rest =>
    if p.portfolio_id = pid then f p :: rest else p :: writeBack pid f rest

/-- Step 5 applied to the holdings list: refresh the still-active holding
(if any) from the transaction price. -/
def refreshActive (holdings : List Holding) (activeIdx : Option ℕ) (price : ℚ) :
    List Holding :=
  match activeIdx with
  | some i => holdings.set i (updMetrics (holdings.getD i dummyHolding) price)
  | none => holdings

/-- Step 6 plus the `$set` document of step 7: recompute
`total_value = cash + Σ market_value`, set every weight to
`market_value / total` when the total is positive (else 0), rebuild the
normalized sector exposures, and set the document's fields. -/
def recomputeDoc (cash : ℚ) (holdings1 : List Holding) (p : PortfolioDoc) :
    PortfolioDoc :=
  let total := cash + (holdings1.map Holding.market_value).sum
  let holdings2 := holdings1.map
    (fun h => { h with weight := if total > 0 then h.market_value / total else 0 })
  let sectors :=
    if total > 0 then (sectorExp holdings2).map (fun q => (q.1, q.2 / total)) else []
  { p with
    cash := cash
    total_value := total
    holdings := holdings2
    sector_exposures := sectors }

/-- Steps 5–7 of `update_portfolio_with_transaction`: refresh the active
holding, recompute the aggregates and write the document back. -/
def finalize (db : Db) (pid : String) (cash : ℚ) (holdings : List Holding)
    (activeIdx : Option ℕ) (price : ℚ) : Db :=
  { db with
    portfolios := writeBack pid (recomputeDoc cash (refreshActive holdings activeIdx price))
      db.portfolios }

/-- Steps 3–4 of `update_portfolio_with_transaction` (locate/create the
holding, validate, apply the cash and quantity math). On success returns
the new cash balance, the holdings list and the index of the still-active
holding. A raised `ValueError` is an `Except.error`. -/
def applyMath (pf : PortfolioDoc) (txn : Txn) (meta : Option StockMeta) :
    Except String (ℚ × List Holding × Option ℕ) :=
  let holdings0 := pf.holdings
  let idx0 := holdings0.findIdx? (fun h => h.ticker = txn.ticker)
  if idx0 = none ∧ txn.action = TxnAction.SELL then
    Except.error "Cannot sell: not found in portfolio"
  else
    let createNew := idx0 = none ∧ txn.action = TxnAction.BUY
    let holdings := if createNew then holdings0 ++ [newShell txn meta] else holdings0
    let idx := if createNew then some holdings0.length else idx0
    let total_cost := txn.quantity * txn.price
    let cash := pf.cash
    match txn.action with
    | TxnAction.BUY =>
      let cost_with_fees := total_cost + txn.fees
      if cash < cost_with_fees then Except.error "Insufficient cash"
      else
        match idx with
        | some i =>
          let h := holdings.getD i dummyHolding
          let new_qty := h.quantity + txn.quantity
          let new_avg :=
            if new_qty > 0 then (h.quantity * h.avg_cost + total_cost) / new_qty else 0
          Except.ok (cash - cost_with_fees,
            holdings.set i { h with avg_cost := new_avg, quantity := new_qty },
            some i)
        | none => Except.error "unreachable: BUY always has a holding index"
    | TxnAction.SELL =>
      match idx with
      | some i =>
        let h := holdings.getD i dummyHolding
        if h.quantity < txn.quantity then Except.error "Insufficient quantity"
        else
          let new_qty := h.quantity - txn.quantity
          let cash1 := cash + (total_cost - txn.fees)
          if new_qty = 0 then Except.ok (cash1, holdings.eraseIdx i, none)
          else
            Except.ok (cash1, holdings.set i { h with quantity := new_qty }, some i)
      | none => Except.error "unreachable: SELL validated above"
    | _ => Except.ok (cash, holdings, idx)

/-- `update_portfolio_with_transaction` from
`src/stocks_agent/agents/accessories/create_update_portfolio.py`. The
function mutates an external MongoDB, so the embedding returns the
database state reflecting every persisted write together with the raised
error, if any. Crucially, step 2 inserts the transaction into the
`transactions` collection *before* the validation of steps 3–4 runs. -/
def update_portfolio_with_transaction (db : Db) (pid : String) (txn : Txn)
    (meta : Option StockMeta) : Db × Option String :=
  match db.portfolios.find? (fun p => p.portfolio_id = pid) with
  | none => (db, some "Portfolio not found")
  | some pf =>
    let db1 : Db := { db with transactions := db.transactions ++ [(pid, txn)] }
    match applyMath pf txn meta with
    | Except.error e => (db1, some e)
    | Except.ok r => (finalize db1 pid r.1 r.2.1 r.2.2 txn.price, none)

end Portfolio

/-- The portfolio of the specification's BUY scenario: cash 5000, no
holdings. -/
def msftBasePf : Portfolio.PortfolioDoc :=
  { portfolio_id := "p1", cash := 5000, total_value := 5000, holdings := [],
    sector_exposures := [] }

/-- A database holding only `msftBasePf`, with an empty transactions
log. -/
def msftDb : Portfolio.Db := { portfolios := [msftBasePf], transactions := [] }

/-- `BUY MSFT qty=5 price=300 fees=10` from the specification's concrete
scenario. -/
def msftBuyTxn : Portfolio.Txn :=
  { ticker := "MSFT", action := Portfolio.TxnAction.BUY, quantity := 5, price := 300,
    fees := 10 }

/-- The metadata passed with the MSFT BUY. -/
def msftMeta : Portfolio.StockMeta :=
  { company_name := "Microsoft Corp", sector := "Technology", beta := 9 / 10 }

/-- The MSFT holding stored after the BUY: 5 shares at average cost 300,
market value 1500, weight 1500/4990. -/
def msftResultHolding : Portfolio.Holding :=
  { ticker := "MSFT"
    company_name := "Microsoft Corp"
    sector := some "Technology"
    beta := 9 / 10
    quantity := 5
    avg_cost := 300
    current_price := 300
    market_value := 1500
    unrealized_pnl := 0
    weight := 1500 / 4990 }

/-- The portfolio document stored after the MSFT BUY: cash 3490, total
4990. -/
def msftResultDoc : Portfolio.PortfolioDoc :=
  { portfolio_id := "p1", cash := 3490, total_value := 4990,
    holdings := [msftResultHolding],
    sector_exposures := [("Technology", 1500 / 4990)] }

/-- The first holding of the conservation counterexample (market value
5). -/
def negSellHoldingX : Portfolio.Holding :=
  { ticker := "X"
    company_name := "X Corp"
    sector := none
    beta := 1
    quantity := 1
    avg_cost := 1
    current_price := 5
    market_value := 5
    unrealized_pnl := 4
    weight := 5 / 115 }

/-- The second holding of the conservation counterexample. -/
def negSellHoldingY : Portfolio.Holding :=
  { ticker := "Y"
    company_name := "Y Corp"
    sector := none
    beta := 1
    quantity := 1
    avg_cost := 1
    current_price := 100
    market_value := 100
    unrealized_pnl := 99
    weight := 100 / 115 }

/-- The two-holding portfolio of the conservation counterexample: cash 10,
holdings X (market value 5) and Y (market value 100). -/
def negSellPf : Portfolio.PortfolioDoc :=
  { portfolio_id := "p1", cash := 10, total_value := 115,
    holdings := [negSellHoldingX, negSellHoldingY],
    sector_exposures := [] }

/-- A database holding only `negSellPf`. -/
def negSellDb : Portfolio.Db := { portfolios := [negSellPf], transactions := [] }

/-- A SELL of the whole X position at price 0 with fees 300: it passes
validation (quantity is sufficient; SELL never checks cash or fees) and
drives the cash balance to -290 and the portfolio total to -190. -/
def negSellTxn : Portfolio.Txn :=
  { ticker := "X", action := Portfolio.TxnAction.SELL, quantity := 1, price := 0,
    fees := 300 }

/-- A SELL of a ticker that is not in the portfolio: rejected by
validation. -/
def absentSellTxn : Portfolio.Txn :=
  { ticker := "Z", action := Portfolio.TxnAction.SELL, quantity := 1, price := 10,
    fees := 0 }

namespace Worker

/-- An enriched article as the summarizer worker reads it (the fields the
loop body consults). -/
structure Article where
  article_id : String
  company : String
  title : String
  content : String
deriving DecidableEq

/-- The parsed LLM response. `is_relevant` is read with
`llm_summary.get('is_relevant', True)`, so an absent key (`none`) counts
as relevant. -/
structure LlmResult where
  is_relevant : Option Bool
  relevance_reason : Option String
  summary : String
  key_points : List String
  impact_assessment : String
deriving DecidableEq

/-- A document of the `summarize` collection: `_id` is the article id, and
the document merges the article's fields with the LLM payload and the
worker tag (wall-clock timestamps are not modelled). -/
structure SummaryDoc where
  id : String
  article : Article
  llm : LlmResult
  worker_id : String
deriving DecidableEq

/-- An `enriched_articles` document as the worker sees it: its id and its
`summarized` flag. -/
structure EnrichedDoc where
  article_id : String
  summarized : Bool
deriving DecidableEq

/-- The two MongoDB collections touched by
`LLMWorker.processing_worker`. -/
structure WorkerState where
  summaries : List SummaryDoc
  enriched : List EnrichedDoc
deriving DecidableEq

/-- `enriched_collection.update_one({'article_id': aid},
{'$set': {'summarized': True, ...}})`: set the flag on the first matching
document. -/
def markSummarized (aid : String) : List EnrichedDoc → List EnrichedDoc
  | [] => []
  | d :: rest =>
    if d.article_id = aid then { d with summarized := true } :: rest
    else d :: markSummarized aid rest

/-- `summaries_collection.update_one({'_id': aid}, {'$set': doc},
upsert=True)`: replace the first document with the id, or append. -/
def upsertSummary (doc : SummaryDoc) : List SummaryDoc → List SummaryDoc
  | [] => [doc]
  | d :: rest => if d.id = doc.id then doc :: rest else d :: upsertSummary doc rest

/-- One iteration of the queue-drain loop in `LLMWorker.processing_worker`
from `src/news_scraper/backend/services/llm-worker/worker_native.py`,
after the LLM call returned `llm`: articles with fewer than 100 content
characters are only marked summarized; otherwise, when
`is_relevant` (default true) is false the article is only marked
summarized; otherwise the summary document is upserted and the article
marked summarized. -/
def processArticle (s : WorkerState) (workerTag : String) (article : Article)
    (llm : LlmResult) : WorkerState :=
  if article.content.length < 100 then
    { s with enriched := markSummarized article.article_id s.enriched }
  else
    let is_relevant := llm.is_relevant.getD true
    if is_relevant = false then
      { s with enriched := markSummarized article.article_id s.enriched }
    else
      { summaries := upsertSummary
          { id := article.article_id, article := article, llm := llm,
            worker_id := workerTag } s.summaries,
        enriched := markSummarized article.article_id s.enriched }

end Worker

/-- A 100-character content string. -/
def longContent : String := String.mk (List.replicate 100 'x')

/-- A concrete enriched article with 100 characters of content. -/
def irrelevantArticle : Worker.Article :=
  { article_id := "a1", company := "ACME", title := "ACME quarterly results",
    content := longContent }

/-- A concrete LLM verdict with `is_relevant = false`. -/
def irrelevantVerdict : Worker.LlmResult :=
  { is_relevant := some false, relevance_reason := some "not about ACME",
    summary := "Not relevant to ACME", key_points := [],
    impact_assessment := "Not relevant" }

/-- A concrete worker state: no summaries, one unsummarized enriched
document. -/
def workerStateBefore : Worker.WorkerState :=
  { summaries := [], enriched := [{ article_id := "a1", summarized := false }] }

/-- The first URL of the specification's URL-dedup scenario:
`https://x.com/a?utm_source=twitter`. -/
def urlTrackA : Dedup.UrlParts :=
  { scheme := "https", netloc := "x.com", path := "/a", params := "",
    query := [("utm_source", "twitter")], fragment := "" }

/-- The second URL of the scenario: `https://x.com/a?utm_source=fb`. -/
def urlTrackB : Dedup.UrlParts :=
  { scheme := "https", netloc := "x.com", path := "/a", params := "",
    query := [("utm_source", "fb")], fragment := "" }

/-- The `n`-th of 200 pairwise-distinct non-matching members: stored
normalized title `bbbbbbbbbb` in cluster id `c` repeated `n + 1` times,
added at timestamp `n` (the cluster ids have pairwise-distinct lengths,
so member uniqueness reduces to uniqueness of the member lengths). -/
def titleDecoy (n : ℕ) : Dedup.TitleEntry :=
  { member := "bbbbbbbbbb|" ++ String.mk (List.replicate (n + 1) 'c'), score := n }

/-- The newest stored member: the title that matches the incoming one, in
a cluster whose id length (202) differs from every decoy's. -/
def titleMatchMember : String := "aaaaaaaaaa|" ++ String.mk (List.replicate 202 'c')

/-- A sorted set holding 200 distinct older non-matching titles
(timestamps 0–199) and one newest matching title (timestamp 200): the
code scans only the 200 oldest and misses the newest. All 201 members are
pairwise distinct, as Redis sorted-set members are. -/
def titleStoreCx : List Dedup.TitleEntry :=
  (List.range 200).map titleDecoy ++ [{ member := titleMatchMember, score := 200 }]

/-- The title index holding `titleStoreCx` under every key. -/
def titleIdxCx : String × String → List Dedup.TitleEntry := fun _ => titleStoreCx

/-- The title index of the specification's fuzzy-title scenario: one
stored normalized title for RELIANCE on 2024-01-01. -/
def relianceIdx : String × String → List Dedup.TitleEntry := fun k =>
  if k = ("RELIANCE", "2024-01-01") then
    [{ member := "reliance profit jumps 12 percent in q2|cluster_rel_1", score := 0 }]
  else []

/-- A concrete input whose current price (0) is below the window minimum
low (1). -/
def sigGuardInput : SignalGen.SignalInput :=
  { close := (0, 0), macd_tuple := (0, 0, 0), rsi := 0, atr := none,
    min_low := 1, max_high := 0, sma_20 := none, sma_50 := none,
    volume := (5, 5), vwap := 0, bb_tuple := (0, 0), crsi := none,
    klinger_tuple := (0, 0, 0), keltner := (0, 0, 0), cmo := none }

/-- A concrete input passing the guardrails with six buy votes (MACD cross,
RSI recovery zone, CRSI oversold, lower Bollinger touch, price above VWAP,
lower Keltner touch). -/
def sigBuyInput : SignalGen.SignalInput :=
  { close := (100, 100), macd_tuple := (2, 1, 1), rsi := 30, atr := some 4,
    min_low := 50, max_high := 1000, sma_20 := none, sma_50 := none,
    volume := (10, 10), vwap := 50, bb_tuple := (100, 200), crsi := some 10,
    klinger_tuple := (0, 0, 0), keltner := (0, 300, 100), cmo := none }

/-- Folding `acc + f x` over a list starting from `a` is `a` plus the sum of
the mapped list. -/
theorem foldl_add_eq_sum (f : ℕ → ℚ) (l : List ℕ) (a : ℚ) :
    l.foldl (fun acc dt => acc + f dt) a = a + (l.map f).sum := by
  induction l generalizing a with
  | nil => simp
  | cons x xs ih => simp [ih, add_assoc]

/-- C7: the claim states that `MACDAccumulator.compute_result` returns
`(0, 0, 0)` for every window with fewer than 26 prices; the window
`[1, 2]` has fewer than 26 prices yet the result is nonzero. -/
theorem macd_small_window_counterexample :
    ([1, 2] : List ℚ).length < 26 ∧ Accumulators.macdCompute [1, 2] ≠ (0, 0, 0) := by
  constructor
  · decide
  · decide

/-- C7 (amended): `MACDAccumulator.compute_result` emits `(0, 0, 0)` for an
empty window; a nonempty window with fewer than 26 prices is still run
through the EMA prefix scans and can produce a nonzero result, as the
two-price window `[1, 2]` shows. -/
theorem macd_empty_window_zeros :
    Accumulators.macdCompute [] = (0, 0, 0)
    ∧ Accumulators.macdCompute [1, 2] ≠ (0, 0, 0) := by
  constructor
  · rfl
  · decide

/-- C8: the claim states that the Keltner midline is an EMA(21) with
smoothing factor `2 / (21 + 1) = 1 / 11`; on the two-item window
`[(0, 0), (1, 1)]` the code returns `2 / 21` while the claimed EMA gives
`1 / 11`, so the claim is false. -/
theorem keltner_alpha_counterexample :
    Accumulators.keltnerMidCompute [(0, 0), (1, 1)] = 2 / 21
    ∧ Accumulators.keltnerMidSpec [(0, 0), (1, 1)] = 1 / 11
    ∧ Accumulators.keltnerMidCompute [(0, 0), (1, 1)]
        ≠ Accumulators.keltnerMidSpec [(0, 0), (1, 1)] := by
  refine ⟨by decide, by decide, by decide⟩

/-- C8 (amended): for every window whose date-sorted closes are nonempty,
`KeltnerMidAccumulator.compute_result` returns the seeded EMA fold
`ema := close * alpha + ema * (1 - alpha)` over the closes in ascending
date order starting from the earliest close, with smoothing factor
`alpha = 2 / 21` (not `2 / 22`). -/
theorem keltner_mid_is_ema_fold (items : List (ℚ × ℕ)) (c : ℚ) (rest : List ℚ)
    (hsorted : (pySorted (fun a b => a.2 ≤ b.2) items).map Prod.fst = c :: rest) :
    Accumulators.keltnerMidCompute items = Accumulators.emaFold (2 / 21) c rest := by
  simp only [Accumulators.keltnerMidCompute, Accumulators.emaFold]
  rw [hsorted]

/-- C8 witness: the amended theorem applied to a concrete two-item window
(dates out of order in the input, so the sort matters). -/
theorem keltner_mid_is_ema_fold_witness :
    Accumulators.keltnerMidCompute [(5, 2), (3, 1)] = Accumulators.emaFold (2 / 21) 3 [5] :=
  keltner_mid_is_ema_fold [(5, 2), (3, 1)] 3 [5] (by decide)

/-- C10: `ADLAccumulator.compute_result` is total on every window: it equals
the sum of the per-bar terms over the sorted common dates, and on a
degenerate bar with `high = low` the term's denominator is 1, so the bar
contributes `((close - low) - (high - close)) * volume` and no division by
zero occurs. -/
theorem adl_total_degenerate_bar :
    (∀ hd ld cd vd : List (ℕ × ℚ),
      Accumulators.adlCompute hd ld cd vd =
        ((Accumulators.commonDates hd ld cd vd).map
          (fun dt => Accumulators.adlTerm (Accumulators.dictGetD hd dt)
            (Accumulators.dictGetD ld dt) (Accumulators.dictGetD cd dt)
            (Accumulators.dictGetD vd dt))).sum)
    ∧ ∀ h l c v : ℚ, h = l →
        Accumulators.adlTerm h l c v = ((c - l) - (h - c)) * v := by
  constructor
  · intro hd ld cd vd
    simpa using foldl_add_eq_sum _ (Accumulators.commonDates hd ld cd vd) 0
  · intro h l c v hl
    subst hl
    simp [Accumulators.adlTerm]

/-- C10 witness: the degenerate-bar contribution at a concrete bar with
`high = low = 5`. -/
theorem adl_total_degenerate_bar_witness :
    Accumulators.adlTerm 5 5 4 7 = ((4 - 5) - (5 - 4)) * 7 :=
  adl_total_degenerate_bar.2 5 5 4 7 rfl

/-- The scan loop returns exactly the verdict of `List.find?` with the
match predicate, together with the cluster id of the first matching
member. -/
theorem scanTitles_eq_find (normalized : String) (l : List String) :
    Dedup.scanTitles normalized l =
      match l.find? (fun stored => Dedup.memberMatches normalized stored) with
      | none => (false, none)
      | some stored => (true, (Dedup.rsplitBar stored).map Prod.snd) := by
  induction l with
  | nil => rfl
  | cons stored rest ih =>
    simp only [Dedup.scanTitles, List.find?]
    cases hp : Dedup.rsplitBar stored with
    | none => simpa [Dedup.memberMatches, hp] using ih
    | some p =>
      by_cases hr : Dedup.levRatio normalized p.1 ≥ 13 / 20
      · simp [Dedup.memberMatches, hp, hr]
      · simpa [Dedup.memberMatches, hp, hr] using ih

/-- Sum of element-wise divisions is the divided sum. -/
theorem sum_map_div (l : List ℚ) (t : ℚ) :
    (l.map (fun x => x / t)).sum = l.sum / t := by
  induction l with
  | nil => simp
  | cons x xs ih => simp [ih, add_div]

/-- `find?` after `writeBack` is `find?` with the update applied, provided
the update preserves the document id. -/
theorem find_writeBack (pid : String) (f : Portfolio.PortfolioDoc → Portfolio.PortfolioDoc)
    (hf : ∀ p, (f p).portfolio_id = p.portfolio_id) (ps : List Portfolio.PortfolioDoc) :
    (Portfolio.writeBack pid f ps).find? (fun p => p.portfolio_id = pid)
      = (ps.find? (fun p => p.portfolio_id = pid)).map f := by
  induction ps with
  | nil => rfl
  | cons p rest ih =>
    by_cases hp : p.portfolio_id = pid
    · simp [Portfolio.writeBack, hp, List.find?_cons, hf]
    · simp [Portfolio.writeBack, hp, List.find?_cons, ih]

/-- The document fields set by `recomputeDoc` satisfy wealth conservation:
the total is cash plus the holdings' market values, and when the total is
positive the weights plus the cash share sum to exactly 1. -/
theorem recomputeDoc_invariant (cash : ℚ) (holdings1 : List Portfolio.Holding)
    (p : Portfolio.PortfolioDoc) :
    (Portfolio.recomputeDoc cash holdings1 p).total_value
        = (Portfolio.recomputeDoc cash holdings1 p).cash
          + ((Portfolio.recomputeDoc cash holdings1 p).holdings.map
              Portfolio.Holding.market_value).sum
    ∧ (0 < (Portfolio.recomputeDoc cash holdings1 p).total_value →
        ((Portfolio.recomputeDoc cash holdings1 p).holdings.map
            Portfolio.Holding.weight).sum
          + (Portfolio.recomputeDoc cash holdings1 p).cash
            / (Portfolio.recomputeDoc cash holdings1 p).total_value = 1) := by
  simp only [Portfolio.recomputeDoc]
  set total := cash + (holdings1.map Portfolio.Holding.market_value).sum with ht
  have hmv : ((holdings1.map
      (fun h => { h with weight := if total > 0 then h.market_value / total else 0 })).map
        Portfolio.Holding.market_value)
      = holdings1.map Portfolio.Holding.market_value := by
    simp [List.map_map, Function.comp]
  constructor
  · rw [hmv]
  · intro h0
    have h0t : (0 : ℚ) < total := h0
    have hw : ((holdings1.map
        (fun h => { h with weight := if total > 0 then h.market_value / total else 0 })).map
          Portfolio.Holding.weight)
        = (holdings1.map Portfolio.Holding.market_value).map (fun x => x / total) := by
      simp [List.map_map, Function.comp, if_pos h0t]
    rw [hw, sum_map_div, div_add_div_same, add_comm]
    exact div_self (ne_of_gt h0t)

/-- The document written by `finalize` satisfies wealth conservation. -/
theorem finalize_invariant (db : Portfolio.Db) (pid : String) (cash : ℚ)
    (holdings : List Portfolio.Holding) (activeIdx : Option ℕ) (price : ℚ)
    (pf2 : Portfolio.PortfolioDoc)
    (hfind : (Portfolio.finalize db pid cash holdings activeIdx price).portfolios.find?
        (fun p => p.portfolio_id = pid) = some pf2) :
    pf2.total_value = pf2.cash + (pf2.holdings.map Portfolio.Holding.market_value).sum
    ∧ (0 < pf2.total_value →
        (pf2.holdings.map Portfolio.Holding.weight).sum + pf2.cash / pf2.total_value = 1) := by
  simp only [Portfolio.finalize] at hfind
  rw [find_writeBack _ (Portfolio.recomputeDoc cash
    (Portfolio.refreshActive holdings activeIdx price)) (fun p => rfl)] at hfind
  cases hp : db.portfolios.find? (fun p => p.portfolio_id = pid) with
  | none => rw [hp] at hfind; exact absurd hfind (by simp)
  | some p =>
    rw [hp] at hfind
    simp only [Option.map_some'] at hfind
    obtain rfl := (Option.some_injective _ hfind).symm
    exact recomputeDoc_invariant _ _ _

/-- C1 (amended): after any successfully applied transaction, the stored
portfolio document satisfies `total_value = cash + Σ market_value`
exactly; and whenever the written `total_value` is positive, the sum of
the holding weights plus `cash / total_value` equals 1 exactly (hence
within 1e-6). (When the written total is not positive the code zeroes all
weights and the weight-sum identity fails, see the counterexample.) -/
theorem portfolio_conservation (db : Portfolio.Db) (pid : String) (txn : Portfolio.Txn)
    (meta : Option Portfolio.StockMeta) (pf2 : Portfolio.PortfolioDoc)
    (hsucc : (Portfolio.update_portfolio_with_transaction db pid txn meta).2 = none)
    (hfind : (Portfolio.update_portfolio_with_transaction db pid txn meta).1.portfolios.find?
        (fun p => p.portfolio_id = pid) = some pf2) :
    pf2.total_value = pf2.cash + (pf2.holdings.map Portfolio.Holding.market_value).sum
    ∧ (0 < pf2.total_value →
        (pf2.holdings.map Portfolio.Holding.weight).sum + pf2.cash / pf2.total_value = 1) := by
  cases hf : db.portfolios.find? (fun p => p.portfolio_id = pid) with
  | none =>
    simp only [Portfolio.update_portfolio_with_transaction, hf] at hsucc
    exact absurd hsucc (by simp)
  | some pf =>
    simp only [Portfolio.update_portfolio_with_transaction, hf] at hsucc hfind
    cases ha : Portfolio.applyMath pf txn meta with
    | error e =>
      simp only [ha] at hsucc
      exact absurd hsucc (by simp)
    | ok r =>
      simp only [ha] at hfind
      exact finalize_invariant _ _ _ _ _ _ _ hfind

/-- C1 witness: wealth conservation at the stored document of the
specification's concrete BUY scenario. -/
theorem portfolio_conservation_witness :
    msftResultDoc.total_value
        = msftResultDoc.cash
          + (msftResultDoc.holdings.map Portfolio.Holding.market_value).sum
    ∧ (msftResultDoc.holdings.map Portfolio.Holding.weight).sum
        + msftResultDoc.cash / msftResultDoc.total_value = 1 := by
  have h := portfolio_conservation msftDb "p1" msftBuyTxn (some msftMeta) msftResultDoc
    (by decide) (by decide)
  exact ⟨h.1, h.2 (by decide)⟩

/-- C1: the wealth-conservation claim as stated is false. The SELL above is
applied successfully, the stored document satisfies
`total_value = cash + Σ market_value = -190`, but every weight is zeroed
(the code only divides when the total is positive), so the weight sum plus
the cash share is `0 + (-290)/(-190) = 29/19`, which differs from 1.0 by
far more than 1e-6. -/
theorem portfolio_conservation_counterexample :
    (Portfolio.update_portfolio_with_transaction negSellDb "p1" negSellTxn none).2 = none
    ∧ ((Portfolio.update_portfolio_with_transaction negSellDb "p1"
          negSellTxn none).1.portfolios.find? (fun p => p.portfolio_id = "p1")).map
        (fun p => (p.holdings.map Portfolio.Holding.weight).sum + p.cash / p.total_value)
      = some (29 / 19)
    ∧ 1 + 1 / 1000000 < (29 : ℚ) / 19 := by
  refine ⟨by decide, by decide, by decide⟩

/-- C2 (amended): when `update_portfolio_with_transaction` rejects a
transaction, the stored portfolio document is indeed unchanged — the
portfolio write of step 7 never runs — but the Transaction has already
been inserted into the transactions log, because the insert (step 2)
precedes validation (steps 3–4); only when the portfolio id is not found
at all does the log stay unchanged too. -/
theorem portfolio_rejection_effects (db : Portfolio.Db) (pid : String)
    (txn : Portfolio.Txn) (meta : Option Portfolio.StockMeta)
    (herr : ((Portfolio.update_portfolio_with_transaction db pid txn meta).2).isSome
      = true) :
    (Portfolio.update_portfolio_with_transaction db pid txn meta).1.portfolios
        = db.portfolios
    ∧ (Portfolio.update_portfolio_with_transaction db pid txn meta).1.transactions
      = (if (db.portfolios.find? (fun p => p.portfolio_id = pid)).isSome = true
         then db.transactions ++ [(pid, txn)] else db.transactions) := by
  cases hf : db.portfolios.find? (fun p => p.portfolio_id = pid) with
  | none =>
    simp [Portfolio.update_portfolio_with_transaction, hf]
  | some pf =>
    cases ha : Portfolio.applyMath pf txn meta with
    | error e =>
      simp [Portfolio.update_portfolio_with_transaction, hf, ha]
    | ok r =>
      simp only [Portfolio.update_portfolio_with_transaction, hf, ha,
        Option.isSome_none] at herr
      exact absurd herr (by simp)

/-- C2: atomic rejection as claimed is false. The SELL of an absent ticker
is rejected, yet the transactions log — empty before the call — now holds
the rejected transaction: the insert into the `transactions` collection
happens before validation. -/
theorem portfolio_rejection_counterexample :
    ((Portfolio.update_portfolio_with_transaction msftDb "p1" absentSellTxn none).2).isSome
        = true
    ∧ (Portfolio.update_portfolio_with_transaction msftDb "p1"
          absentSellTxn none).1.transactions ≠ msftDb.transactions := by
  refine ⟨by decide, by decide⟩

/-- C2 witness: the rejection-effects theorem applied to the rejected SELL
of an absent ticker. -/
theorem portfolio_rejection_effects_witness :
    (Portfolio.update_portfolio_with_transaction msftDb "p1" absentSellTxn none).1.portfolios
        = msftDb.portfolios
    ∧ (Portfolio.update_portfolio_with_transaction msftDb "p1"
          absentSellTxn none).1.transactions
      = (if (msftDb.portfolios.find? (fun p => p.portfolio_id = "p1")).isSome = true
         then msftDb.transactions ++ [("p1", absentSellTxn)] else msftDb.transactions) :=
  portfolio_rejection_effects msftDb "p1" absentSellTxn none (by decide)

/-- `markSummarized` really marks: when a document with the id is present,
the updated collection holds a document with that id whose `summarized`
flag is true. -/
theorem markSummarized_marks (aid : String) (l : List Worker.EnrichedDoc)
    (d : Worker.EnrichedDoc) (hd : d ∈ l) (hid : d.article_id = aid) :
    ∃ d2 ∈ Worker.markSummarized aid l, d2.article_id = aid ∧ d2.summarized = true := by
  induction l with
  | nil => cases hd
  | cons x rest ih =>
    by_cases hx : x.article_id = aid
    · exact ⟨{ x with summarized := true }, by simp [Worker.markSummarized, hx],
        hx, rfl⟩
    · cases hd with
      | head => exact absurd hid hx
      | tail _ hmem =>
        obtain ⟨d2, hmem2, h2⟩ := ih hmem
        exact ⟨d2, by simp [Worker.markSummarized, hx, hmem2], h2⟩

/-- C9: for every article whose LLM result has `is_relevant == false` (and
whose content passed the ≥100-character gate), the worker writes nothing
to the summaries collection — the summarize store is unchanged — and sets
`summarized = true` on the first enriched document with the article's id
before moving on. -/
theorem summarizer_relevance_filter (s : Worker.WorkerState) (tag : String)
    (article : Worker.Article) (llm : Worker.LlmResult)
    (hlen : 100 ≤ article.content.length)
    (hirr : llm.is_relevant = some false) :
    (Worker.processArticle s tag article llm).summaries = s.summaries
    ∧ (Worker.processArticle s tag article llm).enriched
        = Worker.markSummarized article.article_id s.enriched
    ∧ (∀ d ∈ s.enriched, d.article_id = article.article_id →
        ∃ d2 ∈ (Worker.processArticle s tag article llm).enriched,
          d2.article_id = article.article_id ∧ d2.summarized = true) := by
  have hguard : ¬(article.content.length < 100) := Nat.not_lt.mpr hlen
  have hstep : Worker.processArticle s tag article llm =
      { s with enriched := Worker.markSummarized article.article_id s.enriched } := by
    simp [Worker.processArticle, hguard, hirr]
  refine ⟨by rw [hstep], by rw [hstep], ?_⟩
  intro d hd hid
  rw [hstep]
  exact markSummarized_marks article.article_id s.enriched d hd hid

/-- C9 witness: the relevance-filter theorem applied at a concrete state
and article. -/
theorem summarizer_relevance_filter_witness :
    (Worker.processArticle workerStateBefore "w1" irrelevantArticle
        irrelevantVerdict).summaries = workerStateBefore.summaries
    ∧ (Worker.processArticle workerStateBefore "w1" irrelevantArticle
        irrelevantVerdict).enriched = [{ article_id := "a1", summarized := true }] := by
  have h := summarizer_relevance_filter workerStateBefore "w1" irrelevantArticle
    irrelevantVerdict (by decide) rfl
  exact ⟨h.1, by rw [h.2.1]; decide⟩

/-- The MD5 embedding agrees with the reference digests of the empty
message, `abc` (RFC 1321 test vectors) and a two-block message. -/
theorem md5_reference_vectors :
    Dedup.md5Hex (Dedup.strBytes "") = "d41d8cd98f00b204e9800998ecf8427e"
    ∧ Dedup.md5Hex (Dedup.strBytes "abc") = "900150983cd24fb0d6963f7d28e17f72"
    ∧ Dedup.md5Hex (Dedup.strBytes
        "The quick brown fox jumps over the lazy dog. The quick brown fox jumps over the lazy dog.")
      = "f168d89e05b664041ee6745f050caa4b" := by
  refine ⟨by decide, by decide, by decide⟩

/-- C6: URL dedup is insensitive to tracking parameters. Normalization
lowercases the host, drops the fragment, strips the tracking query
parameters and trims trailing slashes, so two URLs that differ only in
tracking parameters hash identically; checking the first reserves the
`url:` key for 24 hours and reports not-duplicate, and checking the second
within those 24 hours reports a duplicate with the same url hash. -/
theorem url_dedup_tracking_insensitive (u1 u2 : Dedup.UrlParts) (s0 : Dedup.KvState)
    (t0 t1 : ℕ)
    (hscheme : u1.scheme = u2.scheme) (hnet : u1.netloc = u2.netloc)
    (hpath : u1.path = u2.path) (hparams : u1.params = u2.params)
    (_hfrag : u1.fragment = u2.fragment)
    (hquery : (Dedup.parse_qs u1.query).filter
          (fun p => Dedup.strToLower p.1 ∉ Dedup.tracking_params)
        = (Dedup.parse_qs u2.query).filter
          (fun p => Dedup.strToLower p.1 ∉ Dedup.tracking_params))
    (hfresh : Dedup.kvExists s0 t0 ("url:" ++ Dedup.compute_url_hash u1) = false)
    (hwithin : t1 < t0 + Dedup.DEDUP_TTL_SECONDS) :
    Dedup.compute_url_hash u2 = Dedup.compute_url_hash u1
    ∧ (Dedup.is_url_duplicate s0 t0 u1).1 = (false, Dedup.compute_url_hash u1)
    ∧ (Dedup.is_url_duplicate (Dedup.is_url_duplicate s0 t0 u1).2 t1 u2).1
        = (true, Dedup.compute_url_hash u1) := by
  have hnorm : Dedup.normalize_url u1 = Dedup.normalize_url u2 := by
    simp only [Dedup.normalize_url, hscheme, hnet, hpath, hparams, hquery]
  have hhash : Dedup.compute_url_hash u1 = Dedup.compute_url_hash u2 := by
    simp only [Dedup.compute_url_hash, hnorm]
  have h1 : Dedup.is_url_duplicate s0 t0 u1 =
      ((false, Dedup.compute_url_hash u1),
        Dedup.kvSetex s0 t0 Dedup.DEDUP_TTL_SECONDS
          ("url:" ++ Dedup.compute_url_hash u1)) := by
    simp [Dedup.is_url_duplicate, hfresh]
  have hex : Dedup.kvExists
      (Dedup.kvSetex s0 t0 Dedup.DEDUP_TTL_SECONDS ("url:" ++ Dedup.compute_url_hash u1))
      t1 ("url:" ++ Dedup.compute_url_hash u2) = true := by
    simp only [Dedup.kvExists, Dedup.kvSetex, List.any_cons, Bool.or_eq_true,
      decide_eq_true_eq]
    exact Or.inl ⟨by rw [hhash], hwithin⟩
  rw [hhash] at hex
  refine ⟨hhash.symm, by rw [h1], ?_⟩
  rw [h1]
  simp [Dedup.is_url_duplicate, hex, hhash]

/-- C6 witness: the theorem applied to the specification's concrete
scenario — the two URLs differ only in `utm_source`, the first check at
time 0 on an empty store reports not-duplicate, the second at time 3600
reports a duplicate with the same hash. -/
theorem url_dedup_tracking_insensitive_witness :
    Dedup.compute_url_hash urlTrackB = Dedup.compute_url_hash urlTrackA
    ∧ (Dedup.is_url_duplicate { entries := [] } 0 urlTrackA).1
        = (false, Dedup.compute_url_hash urlTrackA)
    ∧ (Dedup.is_url_duplicate
          (Dedup.is_url_duplicate { entries := [] } 0 urlTrackA).2 3600 urlTrackB).1
        = (true, Dedup.compute_url_hash urlTrackA) :=
  url_dedup_tracking_insensitive urlTrackA urlTrackB { entries := [] } 0 3600
    rfl rfl rfl rfl rfl (by decide) rfl (by decide)

set_option maxHeartbeats 1600000 in
/-- C5: the claim says the check scans at most 200 of the most-recent
stored titles and reports a duplicate exactly when a scanned title
matches. In a realizable store of 201 pairwise-distinct members whose
only match is the newest one, the 200 most-recent titles do contain the
match (so the claim predicts TITLE_DUP), yet `is_title_duplicate` answers
`(false, none)`: the code scans `zrange(key, 0, 199)`, the 200 *oldest*
members. -/
theorem title_dedup_most_recent_counterexample :
    (titleStoreCx.map Dedup.TitleEntry.member).Nodup
    ∧ titleMatchMember ∈ Dedup.mostRecentMembers titleStoreCx 200
    ∧ Dedup.memberMatches (Dedup.normalize_title "aaaaaaaaaa") titleMatchMember = true
    ∧ 10 ≤ (Dedup.normalize_title "aaaaaaaaaa").length
    ∧ Dedup.is_title_duplicate titleIdxCx "2024-01-01" "aaaaaaaaaa" "RELIANCE"
        "2024-01-01T09:00:00" = (false, none) := by
  refine ⟨List.Nodup.of_map String.length ?_, ?_, by decide, by decide, ?_⟩
  · decide
  · decide
  · decide

/-- C5 (amended): for a title whose normalized form has at least 10
characters, `is_title_duplicate` scans at most `MAX_FUZZY_SCAN = 200` of
the *oldest* (lowest-score) titles stored for the same
`(company, published_day)` and reports a duplicate together with the
matched cluster id exactly when some scanned member matches (parses as
`title|cluster_id` with Levenshtein ratio at least 0.65 against the
normalized incoming title); the cluster id returned is that of the first
matching member in scan order. -/
theorem title_dedup_scans_oldest_200 (idx : String × String → List Dedup.TitleEntry)
    (today title company published_at : String)
    (h10 : 10 ≤ (Dedup.normalize_title title).length) :
    Dedup.is_title_duplicate idx today title company published_at =
      match (Dedup.zrangeAsc (idx (company, Dedup.dayOf published_at today))
          Dedup.MAX_FUZZY_SCAN).find?
          (fun stored => Dedup.memberMatches (Dedup.normalize_title title) stored) with
      | none => (false, none)
      | some stored => (true, (Dedup.rsplitBar stored).map Prod.snd) := by
  have hne : ¬(Dedup.normalize_title title = ""
      ∨ (Dedup.normalize_title title).length < 10) := by
    rintro (h | h)
    · rw [h] at h10
      exact absurd h10 (by decide)
    · exact absurd h10 (Nat.not_le.mpr h)
  simp only [Dedup.is_title_duplicate]
  rw [if_neg hne]
  exact scanTitles_eq_find _ _

/-- C5 witness: the amended theorem applied to the specification's concrete
scenario — stored `reliance profit jumps 12 percent in q2`, incoming
`Reliance Profit Jumps 12% in Q2 Results` (Levenshtein ratio 15/19 ≥
0.65) — reports the duplicate with the stored cluster id. -/
theorem title_dedup_scans_oldest_200_witness :
    Dedup.is_title_duplicate relianceIdx "2024-01-01"
      "Reliance Profit Jumps 12% in Q2 Results" "RELIANCE" "2024-01-01T09:00:00"
      = (true, some "cluster_rel_1") := by
  have h := title_dedup_scans_oldest_200 relianceIdx "2024-01-01"
    "Reliance Profit Jumps 12% in Q2 Results" "RELIANCE" "2024-01-01T09:00:00" (by decide)
  rw [h]
  decide

/-- C3: whenever the current price is below the window minimum low or the
current volume is zero, `enhanced_signal_generator` returns action HOLD
with `stop_loss`, `take_profit`, `signal_strength` and `limit_order` all
zero — in particular it never returns BUY under that condition. -/
theorem signal_guard_hold (i : SignalGen.SignalInput) (st bt : ℕ)
    (hguard : i.close.2 < i.min_low ∨ i.volume.2 = 0) :
    SignalGen.enhanced_signal_generator i st bt =
      { action := SignalGen.Action.HOLD, stop_loss := 0, take_profit := 0,
        signal_strength := 0, limit_order := 0, current_price := i.close.2 }
    ∧ (SignalGen.enhanced_signal_generator i st bt).action ≠ SignalGen.Action.BUY := by
  have h : SignalGen.enhanced_signal_generator i st bt =
      { action := SignalGen.Action.HOLD, stop_loss := 0, take_profit := 0,
        signal_strength := 0, limit_order := 0, current_price := i.close.2 } := by
    simp only [SignalGen.enhanced_signal_generator]
    rw [if_pos hguard]
  exact ⟨h, by rw [h]; exact fun hc => SignalGen.Action.noConfusion hc⟩

/-- C3 witness: the guardrail theorem applied at a concrete input. -/
theorem signal_guard_hold_witness :
    SignalGen.enhanced_signal_generator sigGuardInput 5 5 =
      { action := SignalGen.Action.HOLD, stop_loss := 0, take_profit := 0,
        signal_strength := 0, limit_order := 0, current_price := 0 }
    ∧ (SignalGen.enhanced_signal_generator sigGuardInput 5 5).action
        ≠ SignalGen.Action.BUY :=
  signal_guard_hold sigGuardInput 5 5 (Or.inl (by decide))

/-- C4: for every row passing the guardrails, if the buy vote count reaches
the buy threshold the result is BUY with `stop_loss = close - 1 * ATR`,
`take_profit = close + 1.5 * ATR`, `limit_order = close - 0.25 * ATR` and
`signal_strength` the buy vote count; otherwise, if the sell vote count
reaches the sell threshold, the result is SELL with `stop_loss` and
`take_profit` zero, `limit_order = close - 0.25 * ATR` and
`signal_strength` the sell vote count; otherwise HOLD. -/
theorem signal_decision_rule (i : SignalGen.SignalInput) (st bt : ℕ)
    (hguard : ¬(i.close.2 < i.min_low ∨ i.volume.2 = 0)) :
    (SignalGen.countBuyConditions i ≥ bt →
      SignalGen.enhanced_signal_generator i st bt =
        { action := SignalGen.Action.BUY,
          stop_loss := i.close.2 - 1 * i.atr.getD 0,
          take_profit := i.close.2 + (3 / 2) * i.atr.getD 0,
          signal_strength := SignalGen.countBuyConditions i,
          limit_order := i.close.2 - (1 / 4) * i.atr.getD 0,
          current_price := i.close.2 })
    ∧ (SignalGen.countBuyConditions i < bt → SignalGen.countSellConditions i ≥ st →
      SignalGen.enhanced_signal_generator i st bt =
        { action := SignalGen.Action.SELL, stop_loss := 0, take_profit := 0,
          signal_strength := SignalGen.countSellConditions i,
          limit_order := i.close.2 - (1 / 4) * i.atr.getD 0,
          current_price := i.close.2 })
    ∧ (SignalGen.countBuyConditions i < bt → SignalGen.countSellConditions i < st →
      SignalGen.enhanced_signal_generator i st bt =
        { action := SignalGen.Action.HOLD, stop_loss := 0, take_profit := 0,
          signal_strength := 0, limit_order := 0, current_price := i.close.2 }) := by
  refine ⟨fun hbuy => ?_, fun hnotbuy hsell => ?_, fun hnotbuy hnotsell => ?_⟩
  · simp only [SignalGen.enhanced_signal_generator]
    rw [if_neg hguard, if_pos hbuy]
  · simp only [SignalGen.enhanced_signal_generator]
    rw [if_neg hguard, if_neg (Nat.not_le.mpr hnotbuy), if_pos hsell]
  · simp only [SignalGen.enhanced_signal_generator]
    rw [if_neg hguard, if_neg (Nat.not_le.mpr hnotbuy), if_neg (Nat.not_le.mpr hnotsell)]

/-- C4 witness: the decision rule applied at a concrete input that takes
the BUY branch at the default thresholds (5, 5). -/
theorem signal_decision_rule_witness :
    SignalGen.enhanced_signal_generator sigBuyInput 5 5 =
      { action := SignalGen.Action.BUY, stop_loss := 96, take_profit := 106,
        signal_strength := 6, limit_order := 99, current_price := 100 } := by
  have h := (signal_decision_rule sigBuyInput 5 5 (by decide)).1 (by decide)
  rw [h]
  decide
